import Mathlib

/-!
Shallow embedding of the StoryDownload repository (a Flask edge server in
`app.py` composed with the HTML-scraping fetcher in `fetch_stories.py`),
together with theorems settling the specification claims.

Strings are modelled by Lean `String`/`List Char`; Python dicts holding the
media cache are modelled as association lists with prepend-on-assignment
(which has the same `get` semantics); the outbound HTTP layer and the parsed
HTML page are explicit parameters so the request handlers become pure
functions of their inputs.
-/

/-- The whitespace set stripped by Python `str.strip()` (ASCII part). -/
def isPySpace (c : Char) : Bool :=
  c = ' ' || c = '\t' || c = '\n' || c = '\r' || c = Char.ofNat 11 || c = Char.ofNat 12

/-- Python `str.strip()` on a character list: drop whitespace at both ends. -/
def pyStripL (l : List Char) : List Char :=
  ((l.dropWhile isPySpace).reverse.dropWhile isPySpace).reverse

/-- The username normalisation `data.get('username','').strip().lstrip('@')`
performed by the fetch endpoint (`app.py` line 29): strip surrounding
whitespace, then remove every leading `'@'`. -/
def normalize_username (s : String) : String :=
  String.mk ((pyStripL s.data).dropWhile (fun c => c = '@'))

/-- Boolean test that `pre` is a prefix of `l`. -/
def listPrefixEq : List Char → List Char → Bool
  | [], _ => true
  | _ :: _, [] => false
  | a :: as, b :: bs => a = b && listPrefixEq as bs

/-- Boolean contiguous-substring test, modelling Python `needle in hay`. -/
def containsSubL (needle : List Char) : List Char → Bool
  | [] => needle.isEmpty
  | c :: rest => listPrefixEq needle (c :: rest) || containsSubL needle rest

/-- Python `needle in hay` on strings. -/
def strContains (hay needle : String) : Bool :=
  containsSubL needle.data hay.data

/-- ASCII decimal digit test (the `\d` of the regexes, restricted to ASCII). -/
def isDigitB (c : Char) : Bool :=
  '0' ≤ c && c ≤ '9'

/-- Numeric value of a digit list, as `int()` reads it. -/
def digitsToNat (l : List Char) : Nat :=
  l.foldl (fun n c => 10 * n + (c.toNat - 48)) 0

/-- The first maximal digit run of a character list: the `re.search(r'(\d+)', s)`
group used by `parse_time_ago`. -/
def firstDigitRun : List Char → Option (List Char)
  | [] => none
  | c :: rest =>
      if isDigitB c then some (c :: rest.takeWhile isDigitB)
      else firstDigitRun rest

/-- Python `str.lower()` on one character (ASCII range, which is all the
scraped "time ago" labels use). -/
def pyLowerChar (c : Char) : Char :=
  if 'A' ≤ c && c ≤ 'Z' then Char.ofNat (c.toNat + 32) else c

/-- The helper `parse_time_ago` of `fetch_stories.py` (lines 69-80): lowercase
and strip the label, then map "minute"/"hour"/"day" phrases to minutes using
the first embedded integer; anything unrecognised (including a missing
integer, which raises inside the bare `except`) yields the sentinel 999999. -/
def parse_time_ago (s : String) : Nat :=
  let t := pyStripL (s.data.map pyLowerChar)
  let n? := (firstDigitRun t).map digitsToNat
  if containsSubL "minute".data t then
    match n? with
    | some n => n
    | none => 999999
  else if containsSubL "hour".data t then
    match n? with
    | some n => n * 60
    | none => 999999
  else if containsSubL "day".data t then
    match n? with
    | some n => n * 1440
    | none => 999999
  else 999999

/-- A story item as built by `fetch_stories`: the dict
`{url, type, age_minutes}` (the optional `time_str` key is diagnostic only
and not modelled). -/
structure Story where
  url : String
  type : String
  age_minutes : Nat
deriving DecidableEq, Repr

/-- One `col-` grouping inside the structured story container: an optional
video tag (with its `src` attribute, `''` when absent), an optional img tag,
and the optional time label next to a clock icon. -/
structure Col where
  video : Option String
  img : Option String
  timeLabel : Option String
deriving DecidableEq, Repr

/-- The parsed upstream HTML page, as far as `fetch_stories` inspects it:
whether a "no stories" marker div is present, the `col-` groupings of the
`row...g-4` container, and the media URLs present elsewhere in the document
(which the current code never reads). -/
structure Page where
  noStories : Bool
  cols : List Col
  wholeDocMedia : List String
deriving DecidableEq, Repr

/-- Site origin prepended to relative media paths (`fetch_stories.py` line 104). -/
def popygramOrigin : String := "https://www.popygram.com"

/-- URL cleaning: a path starting with `/` is resolved against the site origin
(`story_data['url'].startswith('/')`). -/
def cleanUrl (u : String) : String :=
  match u.data with
  | '/' :: _ => popygramOrigin ++ u
  | _ => u

/-- Age attached to a story: parse the adjacent time label when one was found,
else the sentinel 999999 (`fetch_stories.py` lines 108-116). -/
def colAge (t : Option String) : Nat :=
  match t with
  | some ts => parse_time_ago ts
  | none => 999999

/-- Extraction of one story from one `col-` grouping (`fetch_stories.py`
lines 85-118): prefer the video tag, else the img tag; skip the grouping
entirely when the chosen tag's `src` is empty; clean the URL and attach the
age. -/
def extractCol (col : Col) : Option Story :=
  match col.video with
  | some src =>
      if src = "" then none
      else some ⟨cleanUrl src, "video", colAge col.timeLabel⟩
  | none =>
      match col.img with
      | some src =>
          if src = "" then none
          else some ⟨cleanUrl src, "image", colAge col.timeLabel⟩
      | none => none

/-- The sort key comparison of `stories.sort(key=lambda x: x.get('age_minutes', 999999))`. -/
def ageLe (a b : Story) : Prop :=
  a.age_minutes ≤ b.age_minutes

instance : DecidableRel ageLe := fun a b => Nat.decLe a.age_minutes b.age_minutes

instance : IsTotal Story ageLe := ⟨fun a b => Nat.le_total a.age_minutes b.age_minutes⟩

instance : IsTrans Story ageLe := ⟨fun _ _ _ => Nat.le_trans⟩

/-- Python's `list.sort` with key `age_minutes`: a stable ascending sort.
Stable sorting by a fixed key is a unique function of its input, so the
structural insertion sort used here is extensionally the very sort the
source performs. -/
def sortStories (l : List Story) : List Story :=
  List.insertionSort ageLe l

/-- The dedup loop of `fetch_stories.py` (lines 126-135): walk the sorted
list, keeping a story only when its URL has not been seen yet. -/
def dedupByUrl : List Story → List String → List Story
  | [], _ => []
  | s :: rest, seen =>
      if s.url ∈ seen then dedupByUrl rest seen
      else s :: dedupByUrl rest (s.url :: seen)

/-- Post-processing applied to the extracted stories: sort ascending by age,
then deduplicate by URL keeping the first occurrence. -/
def processStories (l : List Story) : List Story :=
  dedupByUrl (sortStories l) []

/-- The whole of `fetch_stories` (lines 36-145) as a function of the outcome
of the outbound POST: a transport-level failure (`requests.exceptions.RequestException`)
is caught and becomes `[]`; otherwise the parsed page is inspected — an
explicit "no stories" marker yields `[]`, the structured container is
walked per grouping, the fallback whole-document scan is the literal `pass`
of lines 120-123 (it contributes nothing), and the result is sorted and
deduplicated. -/
def fetch_stories_net : Except String Page → List Story
  | .error _ => []
  | .ok page =>
      if page.noStories then []
      else processStories (page.cols.filterMap extractCol)

/-- The in-memory `MEDIA_CACHE` dict of `app.py`, as an association list;
assignment prepends, which gives the same lookup behaviour as a dict. -/
abbrev Cache := List (String × String)

/-- Dict assignment `MEDIA_CACHE[media_id] = url` (`app.py` line 44). -/
def cachePut (c : Cache) (token url : String) : Cache :=
  (token, url) :: c

/-- Dict lookup `MEDIA_CACHE.get(media_id)` (`app.py` lines 116, 152). -/
def cacheGet (c : Cache) (token : String) : Option String :=
  (c.find? (fun p => p.1 == token)).map (fun p => p.2)

/-- The client-facing story descriptor `{'id': media_id, 'type': story['type']}`:
it has exactly these two fields and no URL field. -/
structure SafeStoryDescriptor where
  id : String
  type : String
deriving DecidableEq, Repr

/-- JSON body of a fetch response: either the error object or the success
object carrying the username, the descriptor list and the count. -/
inductive FetchBody
  | err (msg : String)
  | ok (username : String) (stories : List SafeStoryDescriptor) (count : Nat)
deriving DecidableEq, Repr

/-- A fetch-endpoint response: HTTP status plus JSON body. -/
structure FetchResult where
  status : Nat
  body : FetchBody
deriving DecidableEq, Repr

/-- The token-minting loop of the fetch endpoint (`app.py` lines 38-50):
for each raw story take the next fresh token from the `uuid4` stream, store
`token ↦ url` in the cache and emit the safe descriptor. -/
def mintLoop : List Story → List String → Cache → List SafeStoryDescriptor × Cache
  | [], _, c => ([], c)
  | _ :: _, [], c => ([], c)
  | s :: ss, t :: ts, c =>
      let out := mintLoop ss ts (cachePut c t s.url)
      (⟨t, s.type⟩ :: out.1, out.2)

/-- The `/api/fetch` handler (`app.py` lines 25-56), as a function of the JSON
body's username field, the fetcher's result, the stream of fresh tokens and
the current cache. Returns the response and the new cache. -/
def fetch_endpoint (body : Option String) (raw : List Story) (tokens : List String)
    (c : Cache) : FetchResult × Cache :=
  let username := normalize_username (body.getD "")
  if username = "" then (⟨400, .err "Username required"⟩, c)
  else
    let out := mintLoop raw tokens c
    (⟨200, .ok username out.1 out.1.length⟩, out.2)

/-- Result of a successful upstream `requests.get(url)` after
`raise_for_status()`: the optional `content-type` header and the streamed
body (modelled as one opaque string of bytes). -/
structure UpResp where
  contentType : Option String
  body : String
deriving DecidableEq, Repr

/-- Body of a proxy/download response: a JSON error object or the relayed
media stream. -/
inductive RespBody
  | jsonError (msg : String)
  | stream (data : String)
deriving DecidableEq, Repr

/-- An HTTP response of the proxy/download handlers: status, body, and the
explicitly set headers, in order. -/
structure HttpResponse where
  status : Nat
  body : RespBody
  headers : List (String × String)
deriving DecidableEq, Repr

/-- Python library functions used by `get_media_filename` that are outside
this repository: `hashlib.md5(url.encode()).hexdigest()[:10]`, and
`base64.urlsafe_b64decode` followed by `json.loads` (yielding the JSON
object's keys with the `str()` of their values, or `none` when decoding or
parsing raises). -/
structure PyLib where
  md5hex10 : String → String
  b64json : String → Option (List (String × String))

/-- Python `s[:n]`. -/
def takeN (n : Nat) (s : String) : String :=
  String.mk (s.data.take n)

/-- One attempt of `re.search(r'(\d+)_\d+_\d+', url)` at the very start of
`l`: a maximal nonempty digit run, an underscore, a second such run, an
underscore, and at least one digit; yields the first capture group. -/
def tripleAt (l : List Char) : Option (List Char) :=
  let d1 := l.takeWhile isDigitB
  if d1.isEmpty then none
  else
    match l.dropWhile isDigitB with
    | '_' :: r2 =>
        if (r2.takeWhile isDigitB).isEmpty then none
        else
          match r2.dropWhile isDigitB with
          | '_' :: r4 =>
              if (r4.takeWhile isDigitB).isEmpty then none else some d1
          | _ => none
    | _ => none

/-- `re.search(r'(\d+)_\d+_\d+', url)`: leftmost match wins; yields the
first capture group (`app.py` lines 67-69). -/
def findTripleGroup : List Char → Option (List Char)
  | [] => none
  | c :: rest =>
      match tripleAt (c :: rest) with
      | some g => some g
      | none => findTripleGroup rest

/-- `re.search(r'efg=([^&]+)', url)`: leftmost occurrence of `efg=` followed
by at least one non-`&` character; yields the greedy capture group. -/
def findEfg : List Char → Option (List Char)
  | [] => none
  | c :: rest =>
      if listPrefixEq "efg=".data (c :: rest) then
        let v := ((c :: rest).drop 4).takeWhile (fun ch => ch ≠ '&')
        if v.isEmpty then findEfg rest else some v
      else findEfg rest

/-- The identifier-key probe of strategy 2 (`app.py` lines 83-87): the first
of `xpv_asset_id`, `asset_id`, `image_id`, `id` present in the decoded JSON
object. -/
def probeKeys (m : List (String × String)) : Option String :=
  match m.find? (fun p => p.1 == "xpv_asset_id") with
  | some p => some p.2
  | none =>
      match m.find? (fun p => p.1 == "asset_id") with
      | some p => some p.2
      | none =>
          match m.find? (fun p => p.1 == "image_id") with
          | some p => some p.2
          | none =>
              match m.find? (fun p => p.1 == "id") with
              | some p => some p.2
              | none => none

/-- Strategy 2 of `get_media_filename` (`app.py` lines 72-89): extract the
`efg` query value, pad it to a multiple of 4 with `=`, base64url-decode and
JSON-parse it, probe the known identifier keys, and truncate to 15
characters; every failure inside the `try` collapses to `none`. -/
def efgResult (lib : PyLib) (url : String) : Option String :=
  match findEfg url.data with
  | none => none
  | some v =>
      let padded := v ++ List.replicate ((4 - v.length % 4) % 4) '='
      match lib.b64json (String.mk padded) with
      | none => none
      | some m =>
          match probeKeys m with
          | none => none
          | some s => some (takeN 15 s)

/-- Strategy 1 of `get_media_filename` (`app.py` lines 67-69): the first
capture group of the digit-triple regex, truncated to 15 characters. -/
def strategy1 (url : String) : Option String :=
  (findTripleGroup url.data).map (fun g => String.mk (g.take 15))

/-- The identifier after strategy 2 has run (`app.py` lines 72-89): strategy 2
fires only when the strategy-1 identifier is falsy and the URL contains
`efg=`; when it fails the strategy-1 state is kept. -/
def afterStrategy2 (lib : PyLib) (url : String) : Option String :=
  if (strategy1 url).getD "" = "" && strContains url "efg=" then
    match efgResult lib url with
    | some x => some x
    | none => strategy1 url
  else strategy1 url

/-- The final `media_id_part` (`app.py` lines 91-94): when the identifier is
still falsy, strategy 3 substitutes a 10-character md5 hex digest of the URL. -/
def media_id_part (lib : PyLib) (url : String) : String :=
  match afterStrategy2 lib url with
  | some s => if s = "" then lib.md5hex10 url else s
  | none => lib.md5hex10 url

/-- Extension inference (`app.py` lines 96-103): substring tests on the URL,
video markers first, generic binary as last resort. -/
def media_ext (url : String) : String :=
  if strContains url ".mp4" || strContains url "video" then "mp4"
  else if strContains url ".jpg" || strContains url ".jpeg" || strContains url "image" then "jpg"
  else if strContains url ".png" then "png"
  else "bin"

/-- `get_media_filename(url, username)` (`app.py` lines 62-105), assembled
from the strategy stages above. -/
def get_media_filename (lib : PyLib) (url username : String) : String :=
  username ++ "_" ++ media_id_part lib url ++ "." ++ media_ext url

/-- Python falsiness of an optional request argument: absent, or the empty
string. -/
def falsyStr : Option String → Bool
  | none => true
  | some s => s = ""

/-- The `/api/proxy` handler (`app.py` lines 107-141), as a function of the
cache, the `id` and `username` query arguments, the stdlib functions and the
outbound HTTP layer. -/
def proxy (c : Cache) (idArg unameArg : Option String) (lib : PyLib)
    (up : String → Except String UpResp) : HttpResponse :=
  let username := unameArg.getD "story"
  if falsyStr idArg then ⟨400, .jsonError "Media ID required", []⟩
  else
    (cacheGet c (idArg.getD "")).elim
      ⟨404, .jsonError "Invalid or expired media ID", []⟩
      (fun url =>
        match up url with
        | .error e => ⟨500, .jsonError e, []⟩
        | .ok r =>
            ⟨200, .stream r.body,
              [("Content-Type", r.contentType.getD "application/octet-stream"),
               ("Cache-Control", "public, max-age=3600"),
               ("Content-Disposition",
                 "inline; filename=\"" ++ get_media_filename lib url username ++ "\"")]⟩)

/-- The `/api/download` handler (`app.py` lines 143-173): same resolution as
`proxy`, but the success response carries only the content type and an
attachment disposition. -/
def download (c : Cache) (idArg unameArg : Option String) (lib : PyLib)
    (up : String → Except String UpResp) : HttpResponse :=
  let username := unameArg.getD "story"
  if falsyStr idArg then ⟨400, .jsonError "Media ID required", []⟩
  else
    (cacheGet c (idArg.getD "")).elim
      ⟨404, .jsonError "Invalid or expired media ID", []⟩
      (fun url =>
        match up url with
        | .error e => ⟨500, .jsonError e, []⟩
        | .ok r =>
            ⟨200, .stream r.body,
              [("Content-Type", r.contentType.getD "application/octet-stream"),
               ("Content-Disposition",
                 "attachment; filename=\"" ++ get_media_filename lib url username ++ "\"")]⟩)

/-- Lookup of a response header by name (first match). -/
def headerLookup (r : HttpResponse) (name : String) : Option String :=
  (r.headers.find? (fun p => p.1 == name)).map (fun p => p.2)

/-! ## Helper lemmas -/

/-- Cache lookup on a freshly extended cache steps through the head entry. -/
theorem cacheGet_cons (p : String × String) (c : Cache) (t : String) :
    cacheGet (p :: c) t = if p.1 = t then some p.2 else cacheGet c t := by
  by_cases h : p.1 = t
  · simp [cacheGet, List.find?_cons_of_pos (p := fun (q : String × String) => q.1 == t) _ (by simpa using h), h]
  · simp [cacheGet, List.find?_cons_of_neg (p := fun (q : String × String) => q.1 == t) _ (by simpa using h), h]

/-- The head of a `dropWhile` result never satisfies the dropped predicate. -/
theorem dropWhile_cons_not (p : Char → Bool) :
    ∀ (m : List Char) (b : Char) (rest : List Char),
      m.dropWhile p = b :: rest → p b = false := by
  intro m
  induction m with
  | nil => intro b rest h; simp at h
  | cons a as ih =>
      intro b rest h
      by_cases hpa : p a
      · rw [List.dropWhile_cons_of_pos hpa] at h
        exact ih b rest h
      · rw [List.dropWhile_cons_of_neg hpa] at h
        cases h
        simpa using hpa

/-- A whitespace-only username normalises to the empty string: the stripped
string cannot end in whitespace, and removing leading `'@'` keeps its tail. -/
theorem normalize_username_all_space (s : String)
    (h : ∀ ch ∈ (normalize_username s).data, isPySpace ch = true) :
    normalize_username s = "" := by
  have hdata : (normalize_username s).data = (pyStripL s.data).dropWhile (fun c => c = '@') := rfl
  suffices hnil : (pyStripL s.data).dropWhile (fun c => c = '@') = [] by
    show String.mk ((pyStripL s.data).dropWhile (fun c => c = '@')) = ""
    rw [hnil]
  by_contra hR
  obtain ⟨pre, hpre⟩ : ∃ t, t ++ (pyStripL s.data).dropWhile (fun c => c = '@') = pyStripL s.data :=
    List.dropWhile_suffix _
  obtain ⟨b, B, hB⟩ : ∃ b B, ((pyStripL s.data).dropWhile (fun c => c = '@')).reverse = b :: B := by
    cases hRrev : ((pyStripL s.data).dropWhile (fun c => c = '@')).reverse with
    | nil =>
        exact absurd (by simpa using congrArg List.reverse hRrev) hR
    | cons b B => exact ⟨b, B, rfl⟩
  have hbmem : b ∈ (pyStripL s.data).dropWhile (fun c => c = '@') := by
    have : b ∈ ((pyStripL s.data).dropWhile (fun c => c = '@')).reverse := by
      rw [hB]; exact List.mem_cons_self _ _
    exact List.mem_reverse.mp this
  have hbspace : isPySpace b = true := h b (by rw [hdata]; exact hbmem)
  have hTeq : (s.data.dropWhile isPySpace).reverse.dropWhile isPySpace =
      b :: (B ++ pre.reverse) := by
    have h1 : ((s.data.dropWhile isPySpace).reverse.dropWhile isPySpace) =
        (pyStripL s.data).reverse := by
      show _ = ((((s.data.dropWhile isPySpace)).reverse.dropWhile isPySpace).reverse).reverse
      rw [List.reverse_reverse]
    rw [h1, ← hpre, List.reverse_append, hB]
    rfl
  have := dropWhile_cons_not isPySpace _ _ _ hTeq
  rw [hbspace] at this
  exact Bool.noConfusion this

/-! ## Claims -/

/-- Claim C2: for every URL, storing it in the cache and then looking up the
returned token yields that same URL, and lookup of a token that is not a key
of the cache yields not-found. -/
theorem c2_cache_roundtrip :
    (∀ (c : Cache) (t u : String), cacheGet (cachePut c t u) t = some u) ∧
    (∀ (c : Cache) (t : String), (∀ p ∈ c, p.1 ≠ t) → cacheGet c t = none) := by
  constructor
  · intro c t u
    rw [cachePut, cacheGet_cons]
    simp
  · intro c t h
    induction c with
    | nil => rfl
    | cons p rest ih =>
        rw [cacheGet_cons, if_neg (h p (List.mem_cons_self _ _))]
        exact ih (fun q hq => h q (List.mem_cons_of_mem _ hq))

/-- Witness for C2 at concrete inputs. -/
theorem c2_cache_roundtrip_witness :
    cacheGet (cachePut [("a", "b")] "t" "u") "t" = some "u" ∧
    (∀ p ∈ ([("a", "b")] : Cache), p.1 ≠ "x") ∧
    cacheGet [("a", "b")] "x" = none :=
  ⟨c2_cache_roundtrip.1 [("a", "b")] "t" "u", by decide,
   c2_cache_roundtrip.2 [("a", "b")] "x" (by decide)⟩

/-- Minting preserves cache lookups of keys outside the consumed token list. -/
theorem mintLoop_get_preserve :
    ∀ (raw : List Story) (tokens : List String) (c : Cache) (k : String),
      k ∉ tokens → cacheGet (mintLoop raw tokens c).2 k = cacheGet c k := by
  intro raw
  induction raw with
  | nil => intro tokens c k _; rfl
  | cons s ss ih =>
      intro tokens c k hk
      cases tokens with
      | nil => rfl
      | cons t ts =>
          have hkt : k ≠ t := fun h => hk (h ▸ List.mem_cons_self _ _)
          have hkts : k ∉ ts := fun h => hk (List.mem_cons_of_mem _ h)
          show cacheGet (mintLoop ss ts (cachePut c t s.url)).2 k = cacheGet c k
          rw [ih ts (cachePut c t s.url) k hkts, cachePut, cacheGet_cons,
            if_neg (fun h => hkt h.symm)]

/-- The descriptor list minted for `raw` has one entry per story when enough
tokens are supplied. -/
theorem mintLoop_length :
    ∀ (raw : List Story) (tokens : List String) (c : Cache),
      tokens.length = raw.length → (mintLoop raw tokens c).1.length = raw.length := by
  intro raw
  induction raw with
  | nil => intro tokens c _; rfl
  | cons s ss ih =>
      intro tokens c hlen
      cases tokens with
      | nil => simp at hlen
      | cons t ts =>
          show ((⟨t, s.type⟩ : SafeStoryDescriptor) :: (mintLoop ss ts (cachePut c t s.url)).1).length = ss.length + 1
          rw [List.length_cons, ih ts (cachePut c t s.url) (by simpa using hlen)]

/-- Per-index specification of the minting loop: with pairwise-distinct fresh
tokens, descriptor `i` is the pair of token `i` and story `i`'s type, and the
final cache maps token `i` to story `i`'s URL. -/
theorem mintLoop_spec :
    ∀ (raw : List Story) (tokens : List String) (c : Cache),
      tokens.Nodup → tokens.length = raw.length →
      ∀ (i : Nat) (h1 : i < (mintLoop raw tokens c).1.length) (h3 : i < tokens.length)
        (h2 : i < raw.length),
        (mintLoop raw tokens c).1.get ⟨i, h1⟩ =
          ⟨tokens.get ⟨i, h3⟩, (raw.get ⟨i, h2⟩).type⟩ ∧
        cacheGet (mintLoop raw tokens c).2 (tokens.get ⟨i, h3⟩) =
          some (raw.get ⟨i, h2⟩).url := by
  intro raw
  induction raw with
  | nil => intro tokens c _ _ i h1 h3 h2; exact absurd h2 (Nat.not_lt_zero i)
  | cons s ss ih =>
      intro tokens c hnd hlen i h1 h3 h2
      cases tokens with
      | nil => simp at hlen
      | cons t ts =>
          have hnd' : ts.Nodup := (List.nodup_cons.mp hnd).2
          have htts : t ∉ ts := (List.nodup_cons.mp hnd).1
          have hlen' : ts.length = ss.length := by simpa using hlen
          cases i with
          | zero =>
              constructor
              · rfl
              · show cacheGet (mintLoop ss ts (cachePut c t s.url)).2 t = some s.url
                rw [mintLoop_get_preserve ss ts (cachePut c t s.url) t htts,
                  cachePut, cacheGet_cons, if_pos rfl]
          | succ j =>
              have h1' : j < (mintLoop ss ts (cachePut c t s.url)).1.length := by
                have := h1
                simp only [mintLoop, List.length_cons] at this
                exact Nat.lt_of_succ_lt_succ this
              have h3' : j < ts.length := Nat.lt_of_succ_lt_succ h3
              have h2' : j < ss.length := Nat.lt_of_succ_lt_succ h2
              have := ih ts (cachePut c t s.url) hnd' hlen' j h1' h3' h2'
              exact this

/-- Claim C1: on a successful fetch, descriptor `i` consists of exactly the
freshly minted id and the story's type (the `SafeStoryDescriptor` structure
has no URL field), that id is a key of the final cache mapping to exactly the
source URL of the story that produced it, and the returned count is the
length of the stories list. Freshness of the `uuid4` tokens is the
pairwise-distinctness hypothesis. -/
theorem c1_fetch_success (body : Option String) (raw : List Story)
    (tokens : List String) (c : Cache)
    (hu : normalize_username (body.getD "") ≠ "")
    (hnd : tokens.Nodup) (hlen : tokens.length = raw.length) :
    ∃ (ds : List SafeStoryDescriptor) (c2 : Cache),
      fetch_endpoint body raw tokens c =
        (⟨200, FetchBody.ok (normalize_username (body.getD "")) ds ds.length⟩, c2) ∧
      ds.length = raw.length ∧
      ∀ (i : Nat) (h1 : i < ds.length) (h3 : i < tokens.length) (h2 : i < raw.length),
        ds.get ⟨i, h1⟩ = ⟨tokens.get ⟨i, h3⟩, (raw.get ⟨i, h2⟩).type⟩ ∧
        cacheGet c2 (tokens.get ⟨i, h3⟩) = some (raw.get ⟨i, h2⟩).url := by
  refine ⟨(mintLoop raw tokens c).1, (mintLoop raw tokens c).2, ?_, ?_, ?_⟩
  · simp [fetch_endpoint, hu]
  · exact mintLoop_length raw tokens c hlen
  · exact fun i h1 h3 h2 => mintLoop_spec raw tokens c hnd hlen i h1 h3 h2

/-- Witness for C1: one story, one fresh token. -/
theorem c1_fetch_success_witness :
    (normalize_username ((some "alice").getD "") ≠ "" ∧
      (["tokA"] : List String).Nodup ∧
      (["tokA"] : List String).length = ([⟨"http://u/1.jpg", "image", 5⟩] : List Story).length) ∧
    ∃ (ds : List SafeStoryDescriptor) (c2 : Cache),
      fetch_endpoint (some "alice") [⟨"http://u/1.jpg", "image", 5⟩] ["tokA"] [] =
        (⟨200, FetchBody.ok (normalize_username ((some "alice").getD "")) ds ds.length⟩, c2) ∧
      ds.length = ([⟨"http://u/1.jpg", "image", 5⟩] : List Story).length ∧
      ∀ (i : Nat) (h1 : i < ds.length) (h3 : i < (["tokA"] : List String).length)
        (h2 : i < ([⟨"http://u/1.jpg", "image", 5⟩] : List Story).length),
        ds.get ⟨i, h1⟩ = ⟨(["tokA"] : List String).get ⟨i, h3⟩,
          (([⟨"http://u/1.jpg", "image", 5⟩] : List Story).get ⟨i, h2⟩).type⟩ ∧
        cacheGet c2 ((["tokA"] : List String).get ⟨i, h3⟩) =
          some (([⟨"http://u/1.jpg", "image", 5⟩] : List Story).get ⟨i, h2⟩).url :=
  ⟨⟨by decide, by decide, by decide⟩,
    c1_fetch_success (some "alice") [⟨"http://u/1.jpg", "image", 5⟩] ["tokA"] []
      (by decide) (by decide) (by decide)⟩

/-- Claim C3: when the username is blank or whitespace-only after trimming
and stripping leading `@`, the fetch endpoint answers 400 with the error
body and leaves the cache untouched. -/
theorem c3_blank_username_400 (body : Option String) (raw : List Story)
    (tokens : List String) (c : Cache)
    (h : ∀ ch ∈ (normalize_username (body.getD "")).data, isPySpace ch = true) :
    fetch_endpoint body raw tokens c = (⟨400, FetchBody.err "Username required"⟩, c) := by
  have hempty : normalize_username (body.getD "") = "" :=
    normalize_username_all_space _ h
  simp [fetch_endpoint, hempty]

/-- Witness for C3: the username `"  @@  "` normalises to the empty string. -/
theorem c3_blank_username_400_witness :
    (∀ ch ∈ (normalize_username ((some "  @@  ").getD "")).data, isPySpace ch = true) ∧
    fetch_endpoint (some "  @@  ") [⟨"u", "image", 5⟩] ["t"] [("k", "v")] =
      (⟨400, FetchBody.err "Username required"⟩, [("k", "v")]) :=
  ⟨by decide, c3_blank_username_400 (some "  @@  ") [⟨"u", "image", 5⟩] ["t"] [("k", "v")] (by decide)⟩

/-- The dedup loop returns a sublist of its input. -/
theorem dedupByUrl_sublist :
    ∀ (l : List Story) (seen : List String), (dedupByUrl l seen).Sublist l := by
  intro l
  induction l with
  | nil => intro seen; exact List.Sublist.refl _
  | cons s rest ih =>
      intro seen
      by_cases h : s.url ∈ seen
      · simp only [dedupByUrl, if_pos h]
        exact (ih seen).cons _
      · simp only [dedupByUrl, if_neg h]
        exact (ih _).cons₂ _

/-- No story surviving the dedup loop has a URL that was already seen. -/
theorem dedupByUrl_not_seen :
    ∀ (l : List Story) (seen : List String), ∀ t ∈ dedupByUrl l seen, t.url ∉ seen := by
  intro l
  induction l with
  | nil => intro seen t ht; simp [dedupByUrl] at ht
  | cons s rest ih =>
      intro seen t ht
      by_cases h : s.url ∈ seen
      · rw [dedupByUrl, if_pos h] at ht
        exact ih seen t ht
      · rw [dedupByUrl, if_neg h] at ht
        rcases List.mem_cons.mp ht with h1 | h1
        · rw [h1]; exact h
        · exact fun hmem => ih _ t h1 (List.mem_cons_of_mem _ hmem)

/-- The dedup loop leaves each URL at most once. -/
theorem dedupByUrl_nodup :
    ∀ (l : List Story) (seen : List String), ((dedupByUrl l seen).map Story.url).Nodup := by
  intro l
  induction l with
  | nil => intro seen; simp [dedupByUrl]
  | cons s rest ih =>
      intro seen
      by_cases h : s.url ∈ seen
      · rw [dedupByUrl, if_pos h]; exact ih seen
      · rw [dedupByUrl, if_neg h]
        rw [List.map_cons, List.nodup_cons]
        refine ⟨?_, ih _⟩
        intro hmem
        obtain ⟨t, ht, hurl⟩ := List.mem_map.mp hmem
        exact dedupByUrl_not_seen rest _ t ht (hurl ▸ List.mem_cons_self _ _)

/-- Every unseen input URL is represented in the dedup loop's output. -/
theorem dedupByUrl_covers :
    ∀ (l : List Story) (seen : List String), ∀ s ∈ l, s.url ∉ seen →
      ∃ t ∈ dedupByUrl l seen, t.url = s.url := by
  intro l
  induction l with
  | nil => intro seen s hs; simp at hs
  | cons x rest ih =>
      intro seen s hs hunseen
      by_cases h : x.url ∈ seen
      · rw [dedupByUrl, if_pos h]
        rcases List.mem_cons.mp hs with h1 | h1
        · exact absurd (h1 ▸ h) hunseen
        · exact ih seen s h1 hunseen
      · rw [dedupByUrl, if_neg h]
        rcases List.mem_cons.mp hs with h1 | h1
        · exact ⟨x, List.mem_cons_self _ _, by rw [h1]⟩
        · by_cases hx : s.url = x.url
          · exact ⟨x, List.mem_cons_self _ _, hx.symm⟩
          · obtain ⟨t, ht, hurl⟩ := ih (x.url :: seen) s h1
              (by simp [hunseen, hx])
            exact ⟨t, List.mem_cons_of_mem _ ht, hurl⟩

/-- On an age-sorted input, the dedup loop keeps, for each URL, an occurrence
of minimal age. -/
theorem dedupByUrl_min :
    ∀ (l : List Story) (seen : List String), l.Pairwise ageLe →
      ∀ t ∈ dedupByUrl l seen, ∀ s ∈ l, s.url = t.url →
        t.age_minutes ≤ s.age_minutes := by
  intro l
  induction l with
  | nil => intro seen _ t ht; simp [dedupByUrl] at ht
  | cons x rest ih =>
      intro seen hp t ht s hs hurl
      have hp' : rest.Pairwise ageLe := (List.pairwise_cons.mp hp).2
      have hxle : ∀ b ∈ rest, ageLe x b := (List.pairwise_cons.mp hp).1
      by_cases h : x.url ∈ seen
      · rw [dedupByUrl, if_pos h] at ht
        rcases List.mem_cons.mp hs with h1 | h1
        · exact absurd (hurl ▸ (h1 ▸ h : s.url ∈ seen))
            (dedupByUrl_not_seen rest seen t ht)
        · exact ih seen hp' t ht s h1 hurl
      · rw [dedupByUrl, if_neg h] at ht
        rcases List.mem_cons.mp ht with h1 | h1
        · rcases List.mem_cons.mp hs with h2 | h2
          · rw [h1, h2]
          · rw [h1]; exact hxle s h2
        · rcases List.mem_cons.mp hs with h2 | h2
          · have : t.url ∉ x.url :: seen := dedupByUrl_not_seen rest _ t h1
            exact absurd (by rw [← hurl, h2]; exact List.mem_cons_self _ _) this
          · exact ih (x.url :: seen) hp' t h1 s h2 hurl

/-- Claim C4 (amended): the returned list is sorted ascending by
`age_minutes`; consequently, whenever every known age is at most the
sentinel 999999, sentinel (unknown-age) items come last; each input URL
appears exactly once; and the kept occurrence of a URL is an input item of
minimal age among the input items with that URL. (The unconditional
"sentinel items last" of the original claim fails, see the counterexample.) -/
theorem c4_sorted_dedup (l : List Story) :
    (processStories l).Pairwise ageLe ∧
    ((∀ s ∈ l, s.age_minutes ≤ 999999) →
      (processStories l).Pairwise
        (fun a b => a.age_minutes = 999999 → b.age_minutes = 999999)) ∧
    ((processStories l).map Story.url).Nodup ∧
    (∀ s ∈ l, ∃ t ∈ processStories l, t.url = s.url) ∧
    (∀ t ∈ processStories l, t ∈ l ∧
      ∀ s ∈ l, s.url = t.url → t.age_minutes ≤ s.age_minutes) := by
  have hsorted : (sortStories l).Pairwise ageLe :=
    List.sorted_insertionSort ageLe l
  have hsub : (processStories l).Sublist (sortStories l) :=
    dedupByUrl_sublist (sortStories l) []
  have hmemsort : ∀ x : Story, x ∈ sortStories l ↔ x ∈ l :=
    fun x => (List.perm_insertionSort ageLe l).mem_iff
  have hA : (processStories l).Pairwise ageLe := List.Pairwise.sublist hsub hsorted
  refine ⟨hA, ?_, ?_, ?_, ?_⟩
  · intro hbound
    refine hA.imp_of_mem ?_
    intro a b ha hb hle h999
    have hbl : b ∈ l := (hmemsort b).mp (hsub.mem hb)
    have : b.age_minutes ≤ 999999 := hbound b hbl
    have : 999999 ≤ b.age_minutes := h999 ▸ hle
    omega
  · exact dedupByUrl_nodup (sortStories l) []
  · intro s hs
    exact dedupByUrl_covers (sortStories l) [] s ((hmemsort s).mpr hs) (by simp)
  · intro t ht
    refine ⟨(hmemsort t).mp (hsub.mem ht), ?_⟩
    intro s hs hurl
    exact dedupByUrl_min (sortStories l) [] hsorted t ht s ((hmemsort s).mpr hs) hurl

/-- Counterexample to C4 as stated: `parse_time_ago` maps the label
"700 days ago" to 1008000 minutes, which exceeds the unknown-age sentinel
999999, so on the parsed items below the returned list (correctly sorted
ascending) has its sentinel item first and a known-age item after it —
unknown-age items are not last. -/
theorem c4_counterexample :
    parse_time_ago "700 days ago" = 1008000 ∧
    processStories
        [⟨"https://a/1.jpg", "image", 999999⟩, ⟨"https://b/2.jpg", "image", 1008000⟩] =
      [⟨"https://a/1.jpg", "image", 999999⟩, ⟨"https://b/2.jpg", "image", 1008000⟩] ∧
    ¬ (∀ (i j : Fin (processStories
          [⟨"https://a/1.jpg", "image", 999999⟩,
           ⟨"https://b/2.jpg", "image", 1008000⟩]).length),
        i < j →
        ((processStories
          [⟨"https://a/1.jpg", "image", 999999⟩,
           ⟨"https://b/2.jpg", "image", 1008000⟩]).get i).age_minutes = 999999 →
        ((processStories
          [⟨"https://a/1.jpg", "image", 999999⟩,
           ⟨"https://b/2.jpg", "image", 1008000⟩]).get j).age_minutes = 999999) := by
  refine ⟨by decide, by decide, ?_⟩
  intro hall
  have := hall ⟨0, by decide⟩ ⟨1, by decide⟩ (by decide) (by decide)
  revert this
  decide

/-- Witness for C4 on the spec's own example ages [999999, 5, 30]. -/
theorem c4_sorted_dedup_witness :
    (∀ s ∈ [(⟨"a", "image", 999999⟩ : Story), ⟨"b", "image", 5⟩, ⟨"c", "image", 30⟩],
      s.age_minutes ≤ 999999) ∧
    (processStories [⟨"a", "image", 999999⟩, ⟨"b", "image", 5⟩, ⟨"c", "image", 30⟩]).Pairwise
      (fun a b => a.age_minutes = 999999 → b.age_minutes = 999999) :=
  ⟨by decide,
    (c4_sorted_dedup [⟨"a", "image", 999999⟩, ⟨"b", "image", 5⟩, ⟨"c", "image", 30⟩]).2.1
      (by decide)⟩

/-- Claim C5 (code bug): the claimed whole-document fallback scan does not
exist — the `if not stories:` branch of `fetch_stories.py` lines 120-123 is
a literal `pass` — so a page whose structured container yields no story item
produces an empty result even when the rest of the document holds plausible
CDN media URLs. Here the container has one grouping whose video tag lacks a
`src` (hence yields nothing) and the document body holds a CDN image URL;
the fetcher still returns the empty list. -/
theorem c5_fallback_is_noop :
    fetch_stories_net (Except.ok
      ⟨false, [⟨some "", none, none⟩],
        ["https://scontent.cdninstagram.com/v/t51.2885-15/story.jpg"]⟩) = [] := by decide

/-- Cleaning never produces an empty URL from a nonempty `src`. -/
theorem cleanUrl_ne_empty (src : String) (h : src ≠ "") : cleanUrl src ≠ "" := by
  unfold cleanUrl
  split
  · intro hc
    have hlen := congrArg String.length hc
    rw [String.length_append] at hlen
    have h24 : popygramOrigin.length = 24 := by decide
    simp [h24] at hlen
  · exact h

/-- Every story produced from a container grouping is well-formed: nonempty
URL and a type drawn from the two media kinds. -/
theorem extractCol_wellformed (col : Col) (s : Story) (h : extractCol col = some s) :
    s.url ≠ "" ∧ (s.type = "image" ∨ s.type = "video") := by
  obtain ⟨v, i, tl⟩ := col
  cases v with
  | some src =>
      by_cases hsrc : src = ""
      · simp [extractCol, hsrc] at h
      · have h' : some (⟨cleanUrl src, "video", colAge tl⟩ : Story) = some s := by
          rw [← h]
          show _ = if src = "" then none else some _
          rw [if_neg hsrc]
        injection h' with h2
        rw [← h2]
        exact ⟨cleanUrl_ne_empty src hsrc, Or.inr rfl⟩
  | none =>
      cases i with
      | some src =>
          by_cases hsrc : src = ""
          · simp [extractCol, hsrc] at h
          · have h' : some (⟨cleanUrl src, "image", colAge tl⟩ : Story) = some s := by
              rw [← h]
              show _ = if src = "" then none else some _
              rw [if_neg hsrc]
            injection h' with h2
            rw [← h2]
            exact ⟨cleanUrl_ne_empty src hsrc, Or.inl rfl⟩
      | none => simp [extractCol] at h

/-- Claim C10: every story returned by the fetcher is well-formed — its URL
is a nonempty string (groupings whose chosen media tag has no `src` are
skipped), its type is `"image"` or `"video"`, and (structurally, by the
`Story` record) its `age_minutes` field is always a present integer — so
the edge server's unguarded reads of `story['url']` and `story['type']`
cannot fail. -/
theorem c10_story_wellformed (res : Except String Page) :
    ∀ s ∈ fetch_stories_net res, s.url ≠ "" ∧ (s.type = "image" ∨ s.type = "video") := by
  intro s hs
  cases res with
  | error e => simp [fetch_stories_net] at hs
  | ok page =>
      rw [fetch_stories_net] at hs
      by_cases hns : page.noStories
      · rw [if_pos hns] at hs; simp at hs
      · rw [if_neg hns] at hs
        have hsort : s ∈ sortStories (page.cols.filterMap extractCol) :=
          List.Sublist.mem hs (dedupByUrl_sublist _ [])
        have hmem : s ∈ page.cols.filterMap extractCol :=
          (List.perm_insertionSort ageLe _).mem_iff.mp hsort
        obtain ⟨col, _, hcol⟩ := List.mem_filterMap.mp hmem
        exact extractCol_wellformed col s hcol

/-- Witness for C10 at a concrete page with one image grouping. -/
theorem c10_story_wellformed_witness :
    (⟨"https://www.popygram.com/pic.jpg", "image", 999999⟩ : Story) ∈
      fetch_stories_net (Except.ok ⟨false, [⟨none, some "/pic.jpg", none⟩], []⟩) ∧
    (("https://www.popygram.com/pic.jpg" : String) ≠ "" ∧
      (("image" : String) = "image" ∨ ("image" : String) = "video")) :=
  ⟨by decide,
    c10_story_wellformed (Except.ok ⟨false, [⟨none, some "/pic.jpg", none⟩], []⟩)
      ⟨"https://www.popygram.com/pic.jpg", "image", 999999⟩ (by decide)⟩

/-- Claim C7: a transport-level failure of the outbound request makes the
fetcher return the empty list, and the fetch endpoint then answers 200 with
an empty stories list and count 0 (never a 5xx), leaving the cache unchanged. -/
theorem c7_transport_failure_empty :
    (∀ e : String, fetch_stories_net (Except.error e) = []) ∧
    (∀ (body : Option String) (tokens : List String) (c : Cache) (e : String),
      normalize_username (body.getD "") ≠ "" →
      fetch_endpoint body (fetch_stories_net (Except.error e)) tokens c =
        (⟨200, FetchBody.ok (normalize_username (body.getD "")) [] 0⟩, c)) := by
  refine ⟨fun _ => rfl, ?_⟩
  intro body tokens c e h
  simp [fetch_stories_net, fetch_endpoint, h, mintLoop]

/-- Witness for C7 at a concrete failing transport. -/
theorem c7_transport_failure_empty_witness :
    normalize_username ((some "alice").getD "") ≠ "" ∧
    fetch_endpoint (some "alice") (fetch_stories_net (Except.error "timeout")) ["t"] [("k", "v")] =
      (⟨200, FetchBody.ok (normalize_username ((some "alice").getD "")) [] 0⟩, [("k", "v")]) :=
  ⟨by decide, c7_transport_failure_empty.2 (some "alice") ["t"] [("k", "v")] "timeout" (by decide)⟩

/-- Trivial stdlib instantiation for concrete checks: urls in the concrete
inputs below always hit filename strategy 1, so these functions are never
consulted. -/
def trivLib : PyLib := ⟨fun _ => "", fun _ => none⟩

/-- Concrete cache for the proxy/download comparisons. -/
def c6cache : Cache := [("tok", "http://h/1_2_3.jpg")]

/-- Concrete upstream success for the proxy/download comparisons. -/
def c6up : String → Except String UpResp := fun _ => Except.ok ⟨some "image/jpeg", "BYTES"⟩

/-- Counterexample to C6 as stated: on a successful resolution the two
endpoints do NOT produce the same headers apart from the Content-Disposition
type — the proxy sets `Cache-Control: public, max-age=3600` and the download
endpoint sets no Cache-Control header at all. -/
theorem c6_counterexample :
    ((proxy c6cache (some "tok") none trivLib c6up).headers.filter
        (fun h => !(h.1 == "Content-Disposition"))) ≠
      ((download c6cache (some "tok") none trivLib c6up).headers.filter
        (fun h => !(h.1 == "Content-Disposition"))) ∧
    headerLookup (proxy c6cache (some "tok") none trivLib c6up) "Cache-Control" =
      some "public, max-age=3600" ∧
    headerLookup (download c6cache (some "tok") none trivLib c6up) "Cache-Control" = none := by
  decide

/-- Claim C6 (amended): for every token and display username the download
endpoint resolves and streams exactly like the proxy endpoint — same status,
same body, same Content-Type — and on success its Content-Disposition is the
attachment form of the proxy's inline disposition with the same filename;
but the download endpoint never sets the Cache-Control header the proxy sets. -/
theorem c6_download_like_proxy (c : Cache) (idArg unameArg : Option String)
    (lib : PyLib) (up : String → Except String UpResp) :
    (proxy c idArg unameArg lib up).status = (download c idArg unameArg lib up).status ∧
    (proxy c idArg unameArg lib up).body = (download c idArg unameArg lib up).body ∧
    headerLookup (proxy c idArg unameArg lib up) "Content-Type" =
      headerLookup (download c idArg unameArg lib up) "Content-Type" ∧
    headerLookup (download c idArg unameArg lib up) "Cache-Control" = none ∧
    ((proxy c idArg unameArg lib up).status = 200 →
      ∃ fn, headerLookup (proxy c idArg unameArg lib up) "Content-Disposition" =
          some ("inline; filename=\"" ++ fn ++ "\"") ∧
        headerLookup (download c idArg unameArg lib up) "Content-Disposition" =
          some ("attachment; filename=\"" ++ fn ++ "\"")) := by
  unfold proxy download
  cases hid : falsyStr idArg with
  | true => simp [headerLookup]
  | false =>
      simp only [Bool.false_eq_true, if_false]
      cases hurl : cacheGet c (idArg.getD "") with
      | none => simp [headerLookup, Option.elim]
      | some url =>
          simp only [Option.elim]
          cases hup : up url with
          | error e => simp [headerLookup]
          | ok r =>
              refine ⟨rfl, rfl, ?_, ?_, ?_⟩
              · simp [headerLookup, List.find?]
              · simp [headerLookup, List.find?]
              · intro _
                exact ⟨get_media_filename lib url (unameArg.getD "story"),
                  by simp [headerLookup, List.find?], by simp [headerLookup, List.find?]⟩

/-- Witness for C6 on a successfully resolved token. -/
theorem c6_download_like_proxy_witness :
    (proxy c6cache (some "tok") none trivLib c6up).status = 200 ∧
    (∃ fn, headerLookup (proxy c6cache (some "tok") none trivLib c6up) "Content-Disposition" =
        some ("inline; filename=\"" ++ fn ++ "\"") ∧
      headerLookup (download c6cache (some "tok") none trivLib c6up) "Content-Disposition" =
        some ("attachment; filename=\"" ++ fn ++ "\"")) :=
  ⟨by decide,
    (c6_download_like_proxy c6cache (some "tok") none trivLib c6up).2.2.2.2 (by decide)⟩

/-- Counterexample to C8 as stated: an `id` parameter that is present with
the empty value is not a key of the (empty) cache, yet both endpoints answer
400 (the falsiness check fires first), not 404. -/
theorem c8_counterexample :
    cacheGet [] "" = none ∧
    (proxy [] (some "") none trivLib (fun _ => Except.error "e")).status = 400 ∧
    (proxy [] (some "") none trivLib (fun _ => Except.error "e")).status ≠ 404 ∧
    (download [] (some "") none trivLib (fun _ => Except.error "e")).status = 400 ∧
    (download [] (some "") none trivLib (fun _ => Except.error "e")).status ≠ 404 := by
  decide

/-- Claim C8 (amended): for every present nonempty token that is not a key
of the cache, both the proxy and the download endpoint answer 404 with the
JSON error body — in particular never a 200 with empty content. -/
theorem c8_unknown_token_404 (c : Cache) (t : String) (unameArg : Option String)
    (lib : PyLib) (up : String → Except String UpResp)
    (ht : t ≠ "") (hc : cacheGet c t = none) :
    proxy c (some t) unameArg lib up =
      ⟨404, RespBody.jsonError "Invalid or expired media ID", []⟩ ∧
    download c (some t) unameArg lib up =
      ⟨404, RespBody.jsonError "Invalid or expired media ID", []⟩ ∧
    (proxy c (some t) unameArg lib up).status ≠ 200 ∧
    (download c (some t) unameArg lib up).status ≠ 200 := by
  have hf : falsyStr (some t) = false := by simp [falsyStr, ht]
  have hp : proxy c (some t) unameArg lib up =
      ⟨404, RespBody.jsonError "Invalid or expired media ID", []⟩ := by
    unfold proxy
    rw [hf]
    simp only [Bool.false_eq_true, if_false, Option.getD_some, hc, Option.elim]
  have hd : download c (some t) unameArg lib up =
      ⟨404, RespBody.jsonError "Invalid or expired media ID", []⟩ := by
    unfold download
    rw [hf]
    simp only [Bool.false_eq_true, if_false, Option.getD_some, hc, Option.elim]
  exact ⟨hp, hd, by rw [hp]; decide, by rw [hd]; decide⟩

/-- Witness for C8 at a concrete unknown token. -/
theorem c8_unknown_token_404_witness :
    (("zzz" : String) ≠ "" ∧ cacheGet [("a", "u")] "zzz" = none) ∧
    proxy [("a", "u")] (some "zzz") none trivLib (fun _ => Except.error "e") =
      ⟨404, RespBody.jsonError "Invalid or expired media ID", []⟩ ∧
    download [("a", "u")] (some "zzz") none trivLib (fun _ => Except.error "e") =
      ⟨404, RespBody.jsonError "Invalid or expired media ID", []⟩ ∧
    (proxy [("a", "u")] (some "zzz") none trivLib (fun _ => Except.error "e")).status ≠ 200 ∧
    (download [("a", "u")] (some "zzz") none trivLib (fun _ => Except.error "e")).status ≠ 200 :=
  ⟨⟨by decide, by decide⟩,
    c8_unknown_token_404 [("a", "u")] "zzz" none trivLib (fun _ => Except.error "e")
      (by decide) (by decide)⟩

/-- Counterexample to C9 as stated: two URLs that contain both the substring
`1234567890_111_222` and `.jpg`, yet do not map to `user_1234567890.jpg` —
the first because an earlier `<digits>_<digits>_<digits>` occurrence wins the
leftmost regex match, the second because the `video` substring check takes
priority over `.jpg` in extension inference. -/
theorem c9_counterexample :
    strContains "http://h/9_9_9/1234567890_111_222.jpg" "1234567890_111_222" = true ∧
    strContains "http://h/9_9_9/1234567890_111_222.jpg" ".jpg" = true ∧
    get_media_filename trivLib "http://h/9_9_9/1234567890_111_222.jpg" "user" = "user_9.jpg" ∧
    "user_9.jpg" ≠ "user_1234567890.jpg" ∧
    strContains "http://video.h/1234567890_111_222.jpg" "1234567890_111_222" = true ∧
    strContains "http://video.h/1234567890_111_222.jpg" ".jpg" = true ∧
    get_media_filename trivLib "http://video.h/1234567890_111_222.jpg" "user" =
      "user_1234567890.mp4" ∧
    "user_1234567890.mp4" ≠ "user_1234567890.jpg" := by
  decide

/-- Claim C9 (amended): whenever the leftmost `<digits>_<digits>_<digits>`
match of the URL has first group `1234567890` and the URL contains `.jpg`
but neither `.mp4` nor `video`, the derived filename is exactly
`{username}_1234567890.jpg`. -/
theorem c9_filename_triple (lib : PyLib) (url username : String)
    (h1 : findTripleGroup url.data = some "1234567890".data)
    (h2 : strContains url ".jpg" = true)
    (h3 : strContains url ".mp4" = false)
    (h4 : strContains url "video" = false) :
    get_media_filename lib url username = username ++ "_1234567890.jpg" := by
  have hs1 : strategy1 url = some "1234567890" := by
    unfold strategy1
    rw [h1]
    decide
  have hafter : afterStrategy2 lib url = some "1234567890" := by
    unfold afterStrategy2
    rw [hs1]
    simp
  have hmid : media_id_part lib url = "1234567890" := by
    unfold media_id_part
    rw [hafter]
    simp
  have hext : media_ext url = "jpg" := by
    unfold media_ext
    rw [h2, h3, h4]
    simp
  unfold get_media_filename
  rw [hmid, hext, String.append_assoc, String.append_assoc, String.append_assoc]
  exact congrArg (fun z => username ++ z)
    (by decide : ("_" : String) ++ ("1234567890" ++ ("." ++ "jpg")) = "_1234567890.jpg")

/-- Witness for C9 at a URL whose only digit triple starts with `1234567890`. -/
theorem c9_filename_triple_witness :
    (findTripleGroup "https://h/1234567890_111_222.jpg".data = some "1234567890".data ∧
      strContains "https://h/1234567890_111_222.jpg" ".jpg" = true ∧
      strContains "https://h/1234567890_111_222.jpg" ".mp4" = false ∧
      strContains "https://h/1234567890_111_222.jpg" "video" = false) ∧
    get_media_filename trivLib "https://h/1234567890_111_222.jpg" "alice" =
      "alice" ++ "_1234567890.jpg" :=
  ⟨⟨by decide, by decide, by decide, by decide⟩,
    c9_filename_triple trivLib "https://h/1234567890_111_222.jpg" "alice"
      (by decide) (by decide) (by decide) (by decide)⟩
